import Mathlib

/-!
Verification of the persistence and client contracts of the
`ScreenShot_Analysis` repository (`src/image_analysis.py`).

The history file is modelled as an abstract `FileState`: absent, present
with contents that fail to parse as JSON, or present with contents that
parse to a JSON value.  JSON values are modelled by the inductive `Json`;
Python dictionaries become insertion-ordered association lists, with
`dictGet` / `dictSet` / `dictDel` mirroring `d[k]`, `d[k] = v` and
`del d[k]`.  Fallible Python code returns `Except PyExn`; an uncaught
Python exception is an `.error` value.  `datetime.now().isoformat()` is a
`now` parameter, and the remote model's replies are an `oracle` parameter.
-/

namespace ImageAnalysis

/-- JSON values, as produced by `json.load` / consumed by `json.dump`. -/
inductive Json where
  | null
  | bool (b : Bool)
  | num (n : Int)
  | str (s : String)
  | arr (elems : List Json)
  | obj (fields : List (String × Json))

/-- Python exceptions relevant to `image_analysis.py`. -/
inductive PyExn where
  | jsonDecodeError
  | ioError
  | typeError
  | runtimeError (msg : String)

/-- Contents of the history file once it exists: either bytes that fail to
parse as JSON, or bytes parsing to a JSON value. -/
inductive Content where
  | invalid
  | json (v : Json)

/-- State of the single history file at `HISTORY_FILE`. -/
inductive FileState where
  | absent
  | present (c : Content)

/-- Lookup `d[k]` on a Python dict modelled as an association list
(first binding wins; Python dicts have unique keys). -/
def dictGet : List (String × Json) → String → Option Json
  | [], _ => none
  | (k, v) :: rest, key => if k == key then some v else dictGet rest key

/-- Python `key in d` for a dict. -/
def dictHasKey (fields : List (String × Json)) (key : String) : Bool :=
  fields.any (fun p => p.1 == key)

/-- Python `d[key] = v`: replace the binding in place if the key is
present, otherwise append it (insertion order). -/
def dictSet : List (String × Json) → String → Json → List (String × Json)
  | [], key, v => [(key, v)]
  | (k, w) :: rest, key, v =>
      if k == key then (key, v) :: rest else (k, w) :: dictSet rest key v

/-- Python `del d[key]`: remove the (unique) binding for the key. -/
def dictDel : List (String × Json) → String → List (String × Json)
  | [], _ => []
  | (k, w) :: rest, key => if k == key then rest else (k, w) :: dictDel rest key

/-- Field access on a JSON object, `none` on any other JSON value. -/
def Json.getField : Json → String → Option Json
  | .obj fields, k => dictGet fields k
  | _, _ => none

/-- Boolean test that `needle` is a leading segment of `hay`. -/
def startsWithList : List Char → List Char → Bool
  | [], _ => true
  | _ :: _, [] => false
  | a :: as, b :: bs => a == b && startsWithList as bs

/-- Boolean contiguous-substring test on character lists. -/
def hasSub : List Char → List Char → Bool
  | [], needle => startsWithList needle []
  | c :: t, needle => startsWithList needle (c :: t) || hasSub t needle

/-- Python `needle in hay` on strings (contiguous substring test). -/
def strContainsSub (hay needle : String) : Bool :=
  hasSub hay.toList needle.toList

/-- Python `s.lower()` (ASCII case folding, which covers model names). -/
def strLower (s : String) : String :=
  String.mk (s.toList.map Char.toLower)

/-- The attempt to parse the file's bytes inside `json.load(f)`:
raises `json.JSONDecodeError` when the contents are not valid JSON. -/
def json_load : Content → Except PyExn Json
  | .invalid => .error .jsonDecodeError
  | .json v => .ok v

namespace HistoryManager

/-- `HistoryManager.load` (src/image_analysis.py lines 77-85): return `{}`
when the file is absent, parse it otherwise, and turn a
`json.JSONDecodeError` or `IOError` into `{}`. -/
def load : FileState → Except PyExn Json
  | .absent => .ok (.obj [])
  | .present c =>
      match json_load c with
      | .ok v => .ok v
      | .error .jsonDecodeError => .ok (.obj [])
      | .error .ioError => .ok (.obj [])
      | .error e => .error e

/-- The `entry` dict built inside `HistoryManager.save`. -/
def mkEntry (title : String) (image_paths : List String) (history_log : Json)
    (now : String) : Json :=
  .obj [("title", .str title),
        ("images", .arr (image_paths.map .str)),
        ("messages", history_log),
        ("updated_at", .str now)]

/-- `HistoryManager.save` (lines 87-98): load the document, bind
`chat_id` to a fresh entry, rewrite the whole file.  Setting a key on a
non-dict value raises `TypeError`. -/
def save (fs : FileState) (chat_id title : String) (image_paths : List String)
    (history_log : Json) (now : String) : Except PyExn FileState :=
  match load fs with
  | .error e => .error e
  | .ok (.obj fields) =>
      .ok (.present (.json (.obj
        (dictSet fields chat_id (mkEntry title image_paths history_log now)))))
  | .ok _ => .error .typeError

/-- `HistoryManager.delete_entry` (lines 100-106): load the document and,
only when `chat_id in data`, delete the binding and rewrite the file.
On a loaded non-dict value, Python `in` means list membership or
substring test, and the subsequent `del data[chat_id]` (or the `in`
itself, for non-iterable values) raises `TypeError`. -/
def delete_entry (fs : FileState) (chat_id : String) : Except PyExn FileState :=
  match load fs with
  | .error e => .error e
  | .ok (.obj fields) =>
      if dictHasKey fields chat_id then
        .ok (.present (.json (.obj (dictDel fields chat_id))))
      else .ok fs
  | .ok (.arr elems) =>
      if elems.any (fun j => match j with | .str s => s == chat_id | _ => false) then
        .error .typeError
      else .ok fs
  | .ok (.str s) =>
      if strContainsSub s chat_id then .error .typeError else .ok fs
  | .ok _ => .error .typeError

/-- `HistoryManager.clear_all` (lines 108-112): only when the file
exists, overwrite it with `{}`. -/
def clear_all : FileState → FileState
  | .absent => .absent
  | .present _ => .present (.json (.obj []))

end HistoryManager

/-- `load` never raises: it returns `.ok` on every file state. -/
theorem load_total (fs : FileState) : ∃ v, HistoryManager.load fs = .ok v := by
  cases fs with
  | absent => exact ⟨_, rfl⟩
  | present c => cases c with
    | invalid => exact ⟨_, rfl⟩
    | json v => exact ⟨_, rfl⟩

theorem dictGet_dictSet_self (fields : List (String × Json)) (k : String) (v : Json) :
    dictGet (dictSet fields k v) k = some v := by
  induction fields with
  | nil => simp [dictSet, dictGet]
  | cons p rest ih =>
      obtain ⟨k', v'⟩ := p
      by_cases h : k' = k
      · simp [dictSet, dictGet, h]
      · simp [dictSet, dictGet, h, ih]

theorem dictGet_dictSet_ne (fields : List (String × Json)) (k key : String) (v : Json)
    (hne : key ≠ k) : dictGet (dictSet fields k v) key = dictGet fields key := by
  induction fields with
  | nil => simp [dictSet, dictGet, Ne.symm hne]
  | cons p rest ih =>
      obtain ⟨k', v'⟩ := p
      by_cases h : k' = k
      · subst h
        simp [dictSet, dictGet, Ne.symm hne]
      · by_cases h2 : k' = key
        · simp [dictSet, dictGet, h, h2, hne]
        · simp [dictSet, dictGet, h, h2, ih]

theorem dictGet_dictDel_ne (fields : List (String × Json)) (k key : String)
    (hne : key ≠ k) : dictGet (dictDel fields k) key = dictGet fields key := by
  induction fields with
  | nil => simp [dictDel]
  | cons p rest ih =>
      obtain ⟨k', v'⟩ := p
      by_cases h : k' = k
      · subst h
        simp [dictDel, dictGet, Ne.symm hne]
      · by_cases h2 : k' = key
        · simp [dictDel, dictGet, h, h2, hne]
        · simp [dictDel, dictGet, h, h2, ih]

theorem dictGet_eq_none_of_not_mem (fields : List (String × Json)) (k : String)
    (h : k ∉ fields.map Prod.fst) : dictGet fields k = none := by
  induction fields with
  | nil => simp [dictGet]
  | cons p rest ih =>
      obtain ⟨k', v'⟩ := p
      simp only [List.map_cons, List.mem_cons, not_or] at h
      simp [dictGet, Ne.symm h.1, ih h.2]

theorem dictGet_dictDel_self (fields : List (String × Json)) (k : String)
    (hnd : (fields.map Prod.fst).Nodup) : dictGet (dictDel fields k) k = none := by
  induction fields with
  | nil => simp [dictDel, dictGet]
  | cons p rest ih =>
      obtain ⟨k', v'⟩ := p
      simp only [List.map_cons, List.nodup_cons] at hnd
      by_cases h : k' = k
      · subst h
        simp only [dictDel, beq_self_eq_true, if_true]
        exact dictGet_eq_none_of_not_mem rest k' hnd.1
      · simp [dictDel, dictGet, h, ih hnd.2]

theorem dictDel_length (fields : List (String × Json)) (k : String)
    (hmem : dictHasKey fields k = true) :
    (dictDel fields k).length + 1 = fields.length := by
  induction fields with
  | nil => simp [dictHasKey] at hmem
  | cons p rest ih =>
      obtain ⟨k', v'⟩ := p
      by_cases h : k' = k
      · simp [dictDel, h]
      · simp only [dictHasKey, List.any_cons, Bool.or_eq_true, beq_iff_eq, h,
          false_or] at hmem
        have := ih (by simpa [dictHasKey] using hmem)
        simp [dictDel, h, this]

/-- Images are opaque PIL handles; only their identity matters here. -/
abbrev Img := Nat

/-- One part of a message sent to the model: a text string or an image. -/
inductive MsgPart where
  | text (s : String)
  | image (i : Img)

/-- A chat session handle: the sequence of message contents sent on it
(`model.start_chat` begins with `history=[]`). -/
structure ChatSession where
  sent : List (List MsgPart)

/-- The client state relevant to the session claims: `self.chat`, which is
`None` until a session is started.  The credential and the
`model`/`model_name` fields play no role in the claims; the remote
model's replies enter through an `oracle` parameter. -/
structure GeminiClient where
  chat : Option ChatSession

/-- `self.model.start_chat(history=[])`: a fresh session. -/
def start_chat : ChatSession := ⟨[]⟩

/-- `chat.send_message(content)`: the content is appended to the turns
sent on the session. -/
def chat_send (s : ChatSession) (content : List MsgPart) : ChatSession :=
  ⟨s.sent ++ [content]⟩

/-- A model listed by `genai.list_models()`, with the two attributes the
code inspects. -/
structure ModelInfo where
  name : String
  supported_generation_methods : List String

/-- The hardcoded default used when auto-detection fails (line 15). -/
def FALLBACK_MODEL : String := "gemini-1.5-flash-latest"

/-- The `flash_models` list comprehension inside
`find_latest_flash_model` (lines 42-46): names of listed models that
support `generateContent` and whose lowercased name contains `flash`. -/
def flashNames (models : List ModelInfo) : List String :=
  (models.filter (fun m =>
    m.supported_generation_methods.contains "generateContent"
    && strContainsSub (strLower m.name) "flash")).map (fun m => m.name)

/-- `GeminiClient.find_latest_flash_model` (lines 32-59).  The outcome of
the `genai.list_models()` probe is the `probe` argument: `.error` when
the probe raises.  On zero matches the fallback is returned; otherwise
the list is sorted in reverse and its first element returned. -/
def GeminiClient.find_latest_flash_model (probe : Except PyExn (List ModelInfo)) : String :=
  match probe with
  | .ok models =>
      let flash_models := flashNames models
      if flash_models.isEmpty then FALLBACK_MODEL
      else (flash_models.mergeSort (fun a b => decide (b ≤ a))).headD FALLBACK_MODEL
  | .error _ => FALLBACK_MODEL

/-- `GeminiClient.send_message` (lines 66-69): raise `RuntimeError` when
`self.chat` is unset, otherwise forward the text on the session and
return the model's reply (the `oracle`'s answer to the session's turns). -/
def GeminiClient.send_message (c : GeminiClient) (oracle : List (List MsgPart) → String)
    (text : String) : Except PyExn (GeminiClient × String) :=
  match c.chat with
  | none => .error (.runtimeError "Chat session not initialized.")
  | some chat =>
      let chat' := chat_send chat [MsgPart.text text]
      .ok ({ chat := some chat' }, oracle chat'.sent)

/-- `GeminiClient.resume_session` (lines 71-74): start a fresh session
and, only when the image list is non-empty (Python truthiness), send the
single synthetic context message.  `history_data` is accepted and
ignored, exactly as in the source. -/
def GeminiClient.resume_session (c : GeminiClient) (history_data : Json)
    (images : List Img) : GeminiClient :=
  if images.isEmpty then { chat := some start_chat }
  else { chat := some (chat_send start_chat
          (MsgPart.text "System: Context restoration." :: images.map MsgPart.image)) }

/-- C1: for every identifier, title, sequence of image paths and message
log, `HistoryManager.save` followed by `HistoryManager.load` yields a
document whose entry at that identifier holds exactly that title, that
image-path sequence and that message log, unchanged. -/
theorem C1_save_load_roundtrip (fs fs' : FileState) (chat_id title now : String)
    (image_paths : List String) (history_log : Json)
    (h : HistoryManager.save fs chat_id title image_paths history_log now = .ok fs') :
    ∃ doc, HistoryManager.load fs' = .ok doc ∧
      ∃ e, doc.getField chat_id = some e ∧
        e.getField "title" = some (.str title) ∧
        e.getField "images" = some (.arr (image_paths.map .str)) ∧
        e.getField "messages" = some history_log := by
  obtain ⟨v, hv⟩ := load_total fs
  cases v <;> simp [HistoryManager.save, hv] at h
  case obj fields =>
    subst h
    refine ⟨_, rfl, HistoryManager.mkEntry title image_paths history_log now, ?_, rfl, rfl, rfl⟩
    exact dictGet_dictSet_self fields chat_id _

/-- C1 witness: a concrete save on an absent file, then load. -/
theorem C1_save_load_roundtrip_witness :
    ∃ doc,
      HistoryManager.load
        (.present (.json (.obj
          [("2024-01-01T00:00:00", HistoryManager.mkEntry "t" ["a.png"] (.arr []) "n")]))) =
        .ok doc ∧
      ∃ e, doc.getField "2024-01-01T00:00:00" = some e ∧
        e.getField "title" = some (.str "t") ∧
        e.getField "images" = some (.arr (["a.png"].map .str)) ∧
        e.getField "messages" = some (.arr []) :=
  C1_save_load_roundtrip .absent _ "2024-01-01T00:00:00" "t" "n" ["a.png"] (.arr []) rfl

/-- C2: `HistoryManager.load` returns `.ok` on every file state (it
never raises), and returns the empty mapping when the file is absent or
its contents are not valid JSON. -/
theorem C2_load_never_raises :
    (∀ fs, ∃ v, HistoryManager.load fs = .ok v) ∧
    HistoryManager.load .absent = .ok (.obj []) ∧
    HistoryManager.load (.present .invalid) = .ok (.obj []) :=
  ⟨load_total, rfl, rfl⟩

/-- C3: `HistoryManager.delete_entry` on an identifier absent from the
stored document leaves the stored state untouched (the file is not even
rewritten), and on a present identifier removes exactly that entry,
leaving every other entry's binding unchanged. -/
theorem C3_delete_entry_frame (fs : FileState) (fields : List (String × Json))
    (chat_id : String)
    (h : HistoryManager.load fs = .ok (.obj fields))
    (hnd : (fields.map Prod.fst).Nodup) :
    (dictHasKey fields chat_id = false →
      HistoryManager.delete_entry fs chat_id = .ok fs) ∧
    (dictHasKey fields chat_id = true →
      ∃ fields',
        HistoryManager.delete_entry fs chat_id =
          .ok (.present (.json (.obj fields'))) ∧
        fields'.length + 1 = fields.length ∧
        dictGet fields' chat_id = none ∧
        ∀ k, k ≠ chat_id → dictGet fields' k = dictGet fields k) := by
  constructor
  · intro hno
    simp [HistoryManager.delete_entry, h, hno]
  · intro hyes
    refine ⟨dictDel fields chat_id, ?_, dictDel_length fields chat_id hyes,
      dictGet_dictDel_self fields chat_id hnd, fun k hk => dictGet_dictDel_ne fields chat_id k hk⟩
    simp [HistoryManager.delete_entry, h, hyes]

/-- C3 witness: deleting a missing key is a no-op and deleting a present
key removes exactly that entry, on a concrete two-entry document. -/
theorem C3_delete_entry_frame_witness :
    HistoryManager.delete_entry
      (.present (.json (.obj [("a", .null), ("b", .num 1)]))) "zz" =
      .ok (.present (.json (.obj [("a", .null), ("b", .num 1)]))) ∧
    ∃ fields',
      HistoryManager.delete_entry
        (.present (.json (.obj [("a", .null), ("b", .num 1)]))) "a" =
        .ok (.present (.json (.obj fields'))) ∧
      fields'.length + 1 = ([("a", Json.null), ("b", Json.num 1)]).length ∧
      dictGet fields' "a" = none ∧
      ∀ k, k ≠ "a" → dictGet fields' k = dictGet [("a", Json.null), ("b", Json.num 1)] k :=
  ⟨(C3_delete_entry_frame (.present (.json (.obj [("a", .null), ("b", .num 1)])))
      [("a", .null), ("b", .num 1)] "zz" rfl (by decide)).1 (by decide),
   (C3_delete_entry_frame (.present (.json (.obj [("a", .null), ("b", .num 1)])))
      [("a", .null), ("b", .num 1)] "a" rfl (by decide)).2 (by decide)⟩

/-- C4: on a stored document, `HistoryManager.save` upserts exactly one
record: the identifier is bound to the freshly built entry (wholesale,
no field merging) and every other identifier keeps its previous
binding. -/
theorem C4_save_upsert_frame (fs : FileState) (fields : List (String × Json))
    (chat_id title now : String) (image_paths : List String) (history_log : Json)
    (h : HistoryManager.load fs = .ok (.obj fields)) :
    ∃ fields',
      HistoryManager.save fs chat_id title image_paths history_log now =
        .ok (.present (.json (.obj fields'))) ∧
      dictGet fields' chat_id =
        some (HistoryManager.mkEntry title image_paths history_log now) ∧
      ∀ k, k ≠ chat_id → dictGet fields' k = dictGet fields k := by
  refine ⟨dictSet fields chat_id (HistoryManager.mkEntry title image_paths history_log now),
    ?_, dictGet_dictSet_self fields chat_id _,
    fun k hk => dictGet_dictSet_ne fields chat_id k _ hk⟩
  simp [HistoryManager.save, h]

/-- C4 witness: a concrete upsert over a document that already binds the
identifier and one other key. -/
theorem C4_save_upsert_frame_witness :
    ∃ fields',
      HistoryManager.save
        (.present (.json (.obj [("a", .null), ("b", .num 1)]))) "a" "t" ["i.png"] (.arr []) "n" =
        .ok (.present (.json (.obj fields'))) ∧
      dictGet fields' "a" = some (HistoryManager.mkEntry "t" ["i.png"] (.arr []) "n") ∧
      ∀ k, k ≠ "a" → dictGet fields' k = dictGet [("a", Json.null), ("b", Json.num 1)] k :=
  C4_save_upsert_frame (.present (.json (.obj [("a", .null), ("b", .num 1)])))
    [("a", .null), ("b", .num 1)] "a" "t" "n" ["i.png"] (.arr []) rfl

/-- C8: after `HistoryManager.clear_all`, `HistoryManager.load` returns
the empty mapping, whatever the file held before. -/
theorem C8_clear_all_then_load_empty (fs : FileState) :
    HistoryManager.load (HistoryManager.clear_all fs) = .ok (.obj []) := by
  cases fs <;> rfl

/-- C10: when the history file does not exist, `HistoryManager.clear_all`
does not create it: the file state stays absent. -/
theorem C10_clear_all_absent_noop :
    HistoryManager.clear_all .absent = .absent := rfl

theorem mergeSort_desc_headD_max (l : List String) (hne : l ≠ []) (d : String) :
    (l.mergeSort (fun a b => decide (b ≤ a))).headD d ∈ l ∧
    ∀ n ∈ l, n ≤ (l.mergeSort (fun a b => decide (b ≤ a))).headD d := by
  have hperm := List.mergeSort_perm l (fun a b => decide (b ≤ a))
  have hsorted := @List.sorted_mergeSort String (fun a b => decide (b ≤ a))
    (fun a b c h1 h2 => by
      simp only [decide_eq_true_eq] at h1 h2 ⊢
      exact le_trans h2 h1)
    (fun a b => by
      simp only [Bool.or_eq_true, decide_eq_true_eq]
      exact le_total b a)
    l
  cases hout : l.mergeSort (fun a b => decide (b ≤ a)) with
  | nil =>
      rw [hout] at hperm
      exact absurd hperm.symm.eq_nil hne
  | cons a t =>
      rw [hout] at hperm hsorted
      refine ⟨hperm.mem_iff.mp (by simp), ?_⟩
      intro n hn
      have hn' : n ∈ a :: t := hperm.mem_iff.mpr hn
      rcases List.mem_cons.mp hn' with rfl | hmem
      · exact le_refl _
      · have := (List.pairwise_cons.mp hsorted).1 n hmem
        simpa using this

theorem mem_flashNames_contains_flash (models : List ModelInfo) (n : String)
    (hn : n ∈ flashNames models) : strContainsSub (strLower n) "flash" = true := by
  simp only [flashNames, List.mem_map, List.mem_filter] at hn
  obtain ⟨m, ⟨_, hp⟩, rfl⟩ := hn
  simp only [Bool.and_eq_true] at hp
  exact hp.2

/-- C5: a failing model-list probe, or one with no listed model that both
supports content generation and has `flash` in its lowercased name,
makes `find_latest_flash_model` return the hardcoded fallback; otherwise
it returns the lexicographically greatest matching name, which contains
the substring. -/
theorem C5_find_latest_flash_model_spec :
    (∀ e, GeminiClient.find_latest_flash_model (.error e) = FALLBACK_MODEL) ∧
    (∀ models, flashNames models = [] →
      GeminiClient.find_latest_flash_model (.ok models) = FALLBACK_MODEL) ∧
    (∀ models, flashNames models ≠ [] →
      GeminiClient.find_latest_flash_model (.ok models) ∈ flashNames models ∧
      (∀ n ∈ flashNames models, n ≤ GeminiClient.find_latest_flash_model (.ok models)) ∧
      strContainsSub
        (strLower (GeminiClient.find_latest_flash_model (.ok models))) "flash" = true) := by
  refine ⟨fun e => rfl, fun models h => ?_, fun models hne => ?_⟩
  · simp [GeminiClient.find_latest_flash_model, h]
  · have hempty : (flashNames models).isEmpty = false := by
      cases h : flashNames models with
      | nil => exact absurd h hne
      | cons a t => rfl
    have hfind : GeminiClient.find_latest_flash_model (.ok models) =
        ((flashNames models).mergeSort (fun a b => decide (b ≤ a))).headD FALLBACK_MODEL := by
      simp [GeminiClient.find_latest_flash_model, hempty]
    obtain ⟨hmem, hmax⟩ := mergeSort_desc_headD_max (flashNames models) hne FALLBACK_MODEL
    rw [hfind]
    exact ⟨hmem, hmax, mem_flashNames_contains_flash models _ hmem⟩

/-- C5 witness: a raising probe, a probe with no matching model, and a
probe with one matching model. -/
theorem C5_find_latest_flash_model_spec_witness :
    GeminiClient.find_latest_flash_model (.error .ioError) = FALLBACK_MODEL ∧
    GeminiClient.find_latest_flash_model (.ok []) = FALLBACK_MODEL ∧
    (GeminiClient.find_latest_flash_model
        (.ok [⟨"models/gemini-1.5-flash", ["generateContent"]⟩]) ∈
        flashNames [⟨"models/gemini-1.5-flash", ["generateContent"]⟩] ∧
      (∀ n ∈ flashNames [⟨"models/gemini-1.5-flash", ["generateContent"]⟩],
        n ≤ GeminiClient.find_latest_flash_model
          (.ok [⟨"models/gemini-1.5-flash", ["generateContent"]⟩])) ∧
      strContainsSub
        (strLower (GeminiClient.find_latest_flash_model
          (.ok [⟨"models/gemini-1.5-flash", ["generateContent"]⟩]))) "flash" = true) :=
  ⟨C5_find_latest_flash_model_spec.1 .ioError,
   C5_find_latest_flash_model_spec.2.1 [] rfl,
   C5_find_latest_flash_model_spec.2.2
     [⟨"models/gemini-1.5-flash", ["generateContent"]⟩] (by decide)⟩

/-- C6: resuming with a non-empty image set starts a fresh session whose
only traffic is one synthetic context message carrying the fixed system
text and the image set; no text from any prior turn is sent. -/
theorem C6_resume_session_replays_only_images (c : GeminiClient) (history_data : Json)
    (images : List Img) (h : images ≠ []) :
    ∃ s, (c.resume_session history_data images).chat = some s ∧
      s.sent = [MsgPart.text "System: Context restoration." :: images.map MsgPart.image] ∧
      ∀ t, MsgPart.text t ∈ s.sent.flatten → t = "System: Context restoration." := by
  cases images with
  | nil => exact absurd rfl h
  | cons a l =>
      refine ⟨_, rfl, rfl, ?_⟩
      intro t ht
      simpa [chat_send, start_chat] using ht

/-- C6 witness: resuming on a one-image set. -/
theorem C6_resume_session_replays_only_images_witness :
    ∃ s, (GeminiClient.resume_session ⟨none⟩ .null [0]).chat = some s ∧
      s.sent = [MsgPart.text "System: Context restoration." ::
        ([0] : List Img).map MsgPart.image] ∧
      ∀ t, MsgPart.text t ∈ s.sent.flatten → t = "System: Context restoration." :=
  C6_resume_session_replays_only_images ⟨none⟩ .null [0] (by decide)

/-- C7: `send_message` errors exactly when no session has been started,
raising the `RuntimeError`; with a live session it forwards the text and
returns the model's reply to it. -/
theorem C7_send_message_requires_session (c : GeminiClient)
    (oracle : List (List MsgPart) → String) (text : String) :
    ((∃ e, c.send_message oracle text = .error e) ↔ c.chat = none) ∧
    (c.chat = none →
      c.send_message oracle text = .error (.runtimeError "Chat session not initialized.")) ∧
    (∀ s, c.chat = some s →
      c.send_message oracle text =
        .ok ({ chat := some (chat_send s [MsgPart.text text]) },
          oracle (chat_send s [MsgPart.text text]).sent)) := by
  obtain ⟨ch⟩ := c
  cases ch with
  | none =>
      refine ⟨⟨fun _ => rfl, fun _ => ⟨.runtimeError "Chat session not initialized.", rfl⟩⟩,
        fun _ => rfl, fun s hs => ?_⟩
      simp at hs
  | some s0 =>
      refine ⟨⟨fun ⟨e, he⟩ => ?_, fun hnone => ?_⟩, fun hnone => ?_, fun s hs => ?_⟩
      · simp [GeminiClient.send_message] at he
      · simp at hnone
      · simp at hnone
      · obtain rfl : s0 = s := by
          simpa using hs
        rfl

/-- C7 witness: a live one-session client succeeds with the oracle's
reply; a client with no session raises the `RuntimeError`. -/
theorem C7_send_message_requires_session_witness :
    GeminiClient.send_message ⟨some ⟨[]⟩⟩ (fun _ => "reply") "hi" =
      .ok ({ chat := some (chat_send ⟨[]⟩ [MsgPart.text "hi"]) },
        (fun _ => "reply") (chat_send ⟨[]⟩ [MsgPart.text "hi"]).sent) ∧
    GeminiClient.send_message ⟨none⟩ (fun _ => "reply") "hi" =
      .error (.runtimeError "Chat session not initialized.") :=
  ⟨(C7_send_message_requires_session ⟨some ⟨[]⟩⟩ (fun _ => "reply") "hi").2.2 ⟨[]⟩ rfl,
   (C7_send_message_requires_session ⟨none⟩ (fun _ => "reply") "hi").2.1 rfl⟩

/-- C9: resuming with an empty image sequence starts a fresh session on
which nothing at all is sent. -/
theorem C9_resume_session_empty_images_sends_nothing (c : GeminiClient)
    (history_data : Json) :
    ∃ s, (c.resume_session history_data []).chat = some s ∧ s.sent = [] :=
  ⟨start_chat, rfl, rfl⟩

end ImageAnalysis
